import Mathlib

set_option maxRecDepth 10000

/-!
Shallow embedding of the computational core of the Toyota GR Cup hackathon
repository, together with theorems that check the natural-language
specification against it.

Embedded components (one Lean definition per source function, named after
the source symbol where Lean allows it):

* `streamlit_app/pages/5_Pit_Stop_OPtimizer.py`:
  `estimate_pit_loss`, `fit_degradation`, `simulate`, the `is_pit_lap`
  column assignment, and the best-strategy selection (`idxmin`).
* `utils/pit_stop_optimizer.py`: `parse_lap_time_to_seconds`.
* `track_config/detect_corners.py`: `detect_corners` (the state-machine
  loop is `segScan`, record construction `mkCornerRec`).
* `track_config/detect_braking_points.py`: `detect_braking_points`.
* `track_config/detect_sectors.py`: `detect_sectors`.

Reals are modelled by `ℚ` (the source works in IEEE doubles; every claim
checked here is robust to that difference and all constants are exactly
representable).  A pandas `NaN` cell is modelled as `Option.none`; a
whole absent column is a frame-level `Bool` flag, matching the source's
`in df.columns` checks.  Python exceptions are modelled with `Except`.
-/

namespace GRCup

/-! ### Small numeric and list helpers shared by several components -/

/-- Insert a value into a sorted list of rationals (ascending). -/
def insSorted (x : ℚ) : List ℚ → List ℚ
  | [] => [x]
  | y :: ys => if x ≤ y then x :: y :: ys else y :: insSorted x ys

/-- Ascending insertion sort; models the ordering pandas uses for medians. -/
def sortQ (l : List ℚ) : List ℚ := l.foldr insSorted []

/-- Median of a list of rationals, as `pandas.Series.median` computes it on
the non-NaN values: middle element for odd length, mean of the two middle
elements for even length; pandas yields `NaN` on an empty series, modelled
here as `none`. -/
def median (l : List ℚ) : Option ℚ :=
  let s := sortQ l
  let n := s.length
  if n = 0 then none
  else if n % 2 = 1 then some (s.getD (n / 2) 0)
  else some ((s.getD (n / 2 - 1) 0 + s.getD (n / 2) 0) / 2)

/-- Median with pandas' NaN collapsed to `0`; only ever used where the
series is provably non-empty. -/
def medianD (l : List ℚ) : ℚ := (median l).getD 0

/-- Minimum of a list, `none` for the empty list; models `Series.min`,
which skips NaN cells (callers pass the list of present cells). -/
def optMin (l : List ℚ) : Option ℚ :=
  l.foldr (fun x acc => match acc with
    | none => some x
    | some y => some (min x y)) none

/-- Maximum of a list, `none` for the empty list; models `Series.max`. -/
def optMax (l : List ℚ) : Option ℚ :=
  l.foldr (fun x acc => match acc with
    | none => some x
    | some y => some (max x y)) none

/-! ### Strategy Simulator (streamlit_app/pages/5_Pit_Stop_OPtimizer.py)

One row of the cleaned per-car lap table.  `pit_time` is the optional
pit-time cell (`none` both for a NaN cell and for rows of a frame that
has no pit_time column; the frame-level flag below distinguishes the
latter), `is_pit_lap` is the boolean column the page assigns before
cleaning. -/
structure Lap where
  lap_number : ℚ
  lap_time_s : ℚ
  pit_time : Option ℚ
  is_pit_lap : Bool
deriving Repr, DecidableEq

/-- Page line `car_df["is_pit_lap"] = car_df.get("pit_time", 0).fillna(0) > 1.0`:
with the column absent the scalar default 0 makes every row `False`; with it
present each NaN becomes 0 and the cell is compared against 1.0. -/
def mkIsPitLap (pit_time : Option ℚ) : Bool := 1 < pit_time.getD 0

/-- Laps not flagged as pit laps (`df[df["is_pit_lap"] == False]`). -/
def nonPitLaps (laps : List Lap) : List Lap := laps.filter (fun l => !l.is_pit_lap)

/-- The `lap_time_s` column. -/
def lapTimes (laps : List Lap) : List ℚ := laps.map Lap.lap_time_s

/-- Degree-1 `np.polyfit`: least-squares `(slope, intercept)` through the
points `zip xs ys`; `none` when the normal-equation denominator vanishes
(singular design matrix, e.g. all x equal — the source would warn and
produce a garbage fit there; no claim exercises that case). -/
def polyfit1 (xs ys : List ℚ) : Option (ℚ × ℚ) :=
  let n : ℚ := xs.length
  let sx := xs.sum
  let sy := ys.sum
  let sxx := (xs.map (fun v => v * v)).sum
  let sxy := ((xs.zip ys).map (fun p => p.1 * p.2)).sum
  let d := n * sxx - sx * sx
  if d = 0 then none
  else
    let slope := (n * sxy - sx * sy) / d
    some (slope, (sy - slope * sx) / n)

/-- Page function `fit_degradation`: restrict to non-pit laps; with fewer
than 4 of them return `(median lap time, 0.02)`, otherwise the least-squares
`(intercept, slope)` of lap_time against lap_number (`b, a = np.polyfit(x, y, 1);
return float(a), float(b)`).  The source returns `(NaN, 0.02)` when the
non-pit set is empty; that single NaN case is collapsed into `none` here. -/
def fit_degradation (laps : List Lap) : Option (ℚ × ℚ) :=
  let base := nonPitLaps laps
  if base.length < 4 then
    (median (lapTimes base)).map (fun m => (m, (1 : ℚ)/50))
  else
    (polyfit1 (base.map Lap.lap_number) (lapTimes base)).map (fun p => (p.2, p.1))

/-- Page function `estimate_pit_loss`.  `hasPitTime` models
`"pit_time" in df.columns`.  Preferred source: median of the non-NaN
pit_time cells when positive; fallback: median of laps slower than 1.2×
the overall median, minus that median; final default 20.0 s.  An empty
lap-time series makes the pandas median NaN, every NaN comparison in the
fallback `False`, hence the default — modelled by the `none` branches. -/
def estimate_pit_loss (hasPitTime : Bool) (laps : List Lap) : ℚ :=
  let viaPit : Option ℚ :=
    if hasPitTime then
      match median (laps.filterMap Lap.pit_time) with
      | some m => if 0 < m then some m else none
      | none => none
    else none
  match viaPit with
  | some m => m
  | none =>
    match median (lapTimes laps) with
    | none => 20
    | some med =>
      let slow := (lapTimes laps).filter (fun t => med * (6/5) < t)
      match median slow with
      | some ms => ms - med
      | none => 20

/-- Page line `laps = int(df["lap_number"].max())`: maximum of the
lap_number column truncated to an integer (lap numbers are positive in
every cleaned frame, so truncation is the floor; the fold default 0
stands for the empty frame, where the source would raise on NaN). -/
def maxLapCount (laps : List Lap) : ℕ :=
  ((laps.map Lap.lap_number).foldl max 0).floor.toNat

/-- Sum of the predicted per-lap times `a + b*lap` over laps 1..n
(`(a + b * seq).sum()` with `seq = np.arange(1, laps + 1)`). -/
def noPitTotal (n : ℕ) (a b : ℚ) : ℚ :=
  ((List.range n).map (fun i => a + b * ((i : ℚ) + 1))).sum

/-- Page function `simulate`: one `(stops, total_time_s)` row per stop
count in {0, 1, 2}, each total being the common no-pit sum plus
`stops * pit_loss`.  No lap-age reset is applied anywhere in it. -/
def simulate (laps : List Lap) (a b pit_loss : ℚ) : List (ℕ × ℚ) :=
  let n := maxLapCount laps
  ([0, 1, 2] : List ℕ).map (fun stops => (stops, noPitTotal n a b + (stops : ℚ) * pit_loss))

/-- Page line `best = res.loc[res["total_time_s"].idxmin()]`: the first
row attaining the minimal total time (`idxmin` returns the first
occurrence of the minimum). -/
def bestStrategy (rows : List (ℕ × ℚ)) : Option (ℕ × ℚ) :=
  rows.foldl (fun acc r =>
    match acc with
    | none => some r
    | some b => if r.2 < b.2 then some r else some b) none

/-! ### Spec-side definitions for the lap-age-reset reading of the claim

These follow the claim's words (total race time as a sum of per-lap
predicted times with lap_age reset to 1 immediately after each stop,
plus pit_loss × stop_count) so they can be compared with `simulate`. -/

/-- Largest stop lap strictly below `lap` (0 when none): the start of the
current stint under the given stop laps. -/
def lastStopBefore (stops : List ℕ) (lap : ℕ) : ℕ :=
  (stops.filter (fun s => s < lap)).foldl max 0

/-- Lap age with resets: 1 on the lap immediately after each stop. -/
def lapAgeWithStops (stops : List ℕ) (lap : ℕ) : ℕ := lap - lastStopBefore stops lap

/-- Total race time as the claim words it: per-lap predicted times with
lap_age reset after each stop, plus pit_loss per stop. -/
def specResetTotal (n : ℕ) (stops : List ℕ) (a b pit_loss : ℚ) : ℚ :=
  ((List.range n).map (fun i => a + b * (lapAgeWithStops stops (i + 1) : ℚ))).sum
    + pit_loss * stops.length

/-! ### Concrete inputs used by counterexamples and witnesses -/

/-- Five cleaned laps numbered 1..5 (times irrelevant to `simulate`,
which reads only the maximal lap number). -/
def exLaps5 : List Lap :=
  (List.range 5).map (fun i => ⟨(i : ℚ) + 1, 100, none, mkIsPitLap none⟩)

/-- A perfectly flat series: 20 laps, every lap time 90.0 s, no pit-time
data (so `is_pit_lap` is `False` on every row, per `mkIsPitLap none`). -/
def flat20 : List Lap :=
  (List.range 20).map (fun i => ⟨(i : ℚ) + 1, 90, none, mkIsPitLap none⟩)

/-- Two clean non-pit laps: a concrete input with fewer than 4 non-pit
laps for the degradation-fit fallback. -/
def c4wLaps : List Lap := [⟨1, 90, none, false⟩, ⟨2, 91, none, false⟩]

/-! ### Corner Segmenter (track_config/detect_corners.py)

One row of the pivoted aligned frame: keyed by (timestamp, lap,
vehicle_number); one `Option ℚ` cell per channel of interest (`none` is a
NaN left by the schema-tolerant union or a failed numeric coercion). -/
structure CRow where
  timestamp : ℚ
  lap : ℤ
  vehicle : ℤ
  speed : Option ℚ
  accy_can : Option ℚ
  steering_angle : Option ℚ
deriving Repr, DecidableEq

/-- The aligned frame handed to the corner detector: the `has*` flags
model column presence (`required.issubset(df.columns)`); a frame whose
flag is `false` has no such column at all. -/
structure CFrame where
  hasSpeed : Bool
  hasAccy : Bool
  hasSteering : Bool
  rows : List CRow
deriving Repr, DecidableEq

/-- A Corner Record exactly as `detect_corners` appends it.  Channel
aggregates are `Option ℚ` because a segment whose channel cells are all
NaN yields a NaN aggregate. -/
structure CornerRec where
  start_time : ℚ
  end_time : ℚ
  min_speed : Option ℚ
  max_lateral_g : Option ℚ
  entry_speed : Option ℚ
  exit_speed : Option ℚ
  lap : ℤ
deriving Repr, DecidableEq

/-- The positional loop of `detect_corners`: two-state machine over the
rows, skipping rows with a NaN steering angle or lateral g, opening on
`|angle| > threshold or |lat_g| > 0.15` while outside, and on
`|angle| < 3 and |lat_g| < 0.1` while inside closing the index span
`(start, i)`.  Both source `if`s run on the same iteration, in order, so
the close test sees the state just updated by the open test.  Returns
every closed span; the caller applies the minimum-length filter exactly
as the source does before appending a record. -/
def segScan (θ : ℚ) : List CRow → ℕ → Bool → ℕ → List (ℕ × ℕ)
  | [], _, _, _ => []
  | r :: rest, i, inC, start =>
    match r.steering_angle, r.accy_can with
    | some ang, some g =>
      let inC1 := if inC = false ∧ (θ < |ang| ∨ (3 : ℚ)/20 < |g|) then true else inC
      let start1 := if inC = false ∧ (θ < |ang| ∨ (3 : ℚ)/20 < |g|) then i else start
      if inC1 = true ∧ |ang| < 3 ∧ |g| < (1 : ℚ)/10 then
        (start1, i) :: segScan θ rest (i + 1) false start1
      else
        segScan θ rest (i + 1) inC1 start1
    | _, _ => segScan θ rest (i + 1) inC start

/-- Closed spans that survive `end_idx - start_idx > min_segment`. -/
def cornerIntervals (θ : ℚ) (minSeg : ℕ) (f : CFrame) : List (ℕ × ℕ) :=
  (segScan θ f.rows 0 false 0).filter (fun p => minSeg < p.2 - p.1)

/-- The segment rows `df.iloc[start_idx:end_idx]`. -/
def segSlice (rows : List CRow) (p : ℕ × ℕ) : List CRow :=
  (rows.drop p.1).take (p.2 - p.1)

/-- One appended record: `seg["timestamp"].min()` / `.max()` over the
segment (the segment is non-empty whenever the length filter passed, so
the `getD 0` default is never observed), NaN-skipping channel aggregates,
first/last speed cells, and the first row's lap. -/
def mkCornerRec (rows : List CRow) (p : ℕ × ℕ) : CornerRec :=
  let seg := segSlice rows p
  { start_time := (optMin (seg.map CRow.timestamp)).getD 0
    end_time := (optMax (seg.map CRow.timestamp)).getD 0
    min_speed := optMin (seg.filterMap CRow.speed)
    max_lateral_g := optMax ((seg.filterMap CRow.accy_can).map (fun g => |g|))
    entry_speed := seg.head?.bind CRow.speed
    exit_speed := seg.getLast?.bind CRow.speed
    lap := (seg.head?.map CRow.lap).getD 0 }

/-- `detect_corners(track, steering_threshold, min_segment)` after the
frame is loaded: empty frame or any required column missing gives `[]`
(no exception: the function is total); otherwise the filtered spans are
turned into records. -/
def detect_corners (θ : ℚ) (minSeg : ℕ) (f : CFrame) : List CornerRec :=
  if f.rows.isEmpty then []
  else if f.hasSpeed = true ∧ f.hasAccy = true ∧ f.hasSteering = true then
    (cornerIntervals θ minSeg f).map (mkCornerRec f.rows)
  else []

/-- Build an aligned-frame row with every channel present. -/
def mkCRow (ts : ℚ) (lap veh : ℤ) (sp g ang : ℚ) : CRow :=
  ⟨ts, lap, veh, some sp, some g, some ang⟩

/-- The claim's boundary scenario: steering [0, 8, 8, 2, 2], lateral g
always 0, five samples at timestamps 0..4. -/
def c3Frame : CFrame :=
  ⟨true, true, true,
    [mkCRow 0 1 1 0 0 0, mkCRow 1 1 1 0 0 8, mkCRow 2 1 1 0 0 8,
     mkCRow 3 1 1 0 0 2, mkCRow 4 1 1 0 0 2]⟩

/-- Four rows sharing timestamp 7 (the pivot key is (timestamp, lap,
vehicle), so one instant shared by several laps/vehicles yields several
rows): steering 8, 8, 8, 0. -/
def c6Frame : CFrame :=
  ⟨true, true, true,
    [mkCRow 7 1 1 100 0 8, mkCRow 7 1 2 100 0 8,
     mkCRow 7 2 1 100 0 8, mkCRow 7 2 2 100 0 0]⟩

/-- The record `detect_corners` emits on `c6Frame` with minimum segment
length 2: its start and end times coincide. -/
def c6Rec : CornerRec := ⟨7, 7, some 100, some 0, some 100, some 100, 1⟩

/-- A strictly timestamp-increasing frame emitting one corner record. -/
def c6wFrame : CFrame :=
  ⟨true, true, true,
    [mkCRow 0 1 1 50 0 8, mkCRow 1 1 1 45 0 8,
     mkCRow 2 1 1 40 0 8, mkCRow 3 1 1 55 0 0]⟩

/-- A non-empty frame whose steering_angle column is absent. -/
def c8wFrame : CFrame := ⟨true, true, false, [mkCRow 0 1 1 50 0 8]⟩

/-! ### Braking Detector (track_config/detect_braking_points.py) -/

/-- One pivoted row for the braking detector's channels. -/
structure BRow where
  timestamp : ℚ
  lap : ℤ
  vehicle : ℤ
  speed : Option ℚ
  accx_can : Option ℚ
  pbrake_f : Option ℚ
  pbrake_r : Option ℚ
deriving Repr, DecidableEq

/-- The aligned frame for braking detection; the flags model
`"speed" in df.columns`, `has_accx`, `has_f`, `has_r`. -/
structure BFrame where
  hasSpeed : Bool
  hasAccx : Bool
  hasF : Bool
  hasR : Bool
  rows : List BRow
deriving Repr, DecidableEq

/-- A Braking Event as the source appends it: a single sample point
carrying the speed immediately before and after. -/
structure BEvent where
  timestamp : ℚ
  lap : ℤ
  vehicle : ℤ
  speed_before : Option ℚ
  speed_after : Option ℚ
deriving Repr, DecidableEq

/-- The per-sample disjunction of `detect_braking_points`: speed drop
below −4.0 (NaN diff counts as False, i.e. either speed cell missing),
longitudinal acceleration below −0.2 g when that column exists, front or
rear brake pressure above 5.0 bar when logged.  Each optional channel
independently gates its own clause. -/
def brakeFires (hasA hf hr : Bool) (prev r : BRow) : Bool :=
  let cond1 := match r.speed, prev.speed with
    | some a, some b => decide (a - b < -4)
    | _, _ => false
  let cond2 := hasA && (match r.accx_can with
    | some w => decide (w < -(1 : ℚ)/5)
    | none => false)
  let cond3 := hf && (match r.pbrake_f with
    | some w => decide (5 < w)
    | none => false)
  let cond4 := hr && (match r.pbrake_r with
    | some w => decide (5 < w)
    | none => false)
  cond1 || cond2 || cond3 || cond4

/-- The record appended for a firing at row `r` with predecessor `prev`. -/
def mkBEvent (prev r : BRow) : BEvent :=
  ⟨r.timestamp, r.lap, r.vehicle, prev.speed, r.speed⟩

/-- `detect_braking_points` after loading: empty frame or missing speed
column yields `[]`; otherwise the loop over `i in range(1, len(df))`
appends one event per firing sample — modelled as a filterMap over the
consecutive pairs `(row[i-1], row[i])`. -/
def detect_braking_points (f : BFrame) : List BEvent :=
  if f.rows.isEmpty then []
  else if f.hasSpeed = false then []
  else (f.rows.zip f.rows.tail).filterMap (fun pr =>
    if brakeFires f.hasAccx f.hasF f.hasR pr.1 pr.2 then some (mkBEvent pr.1 pr.2) else none)

/-- Four samples whose speed series is 100, 100, 90, 90 — a single
−10 units/sample drop at sample index 2 — with the optional channels
absent. -/
def c7wFrame : BFrame :=
  ⟨true, false, false, false,
    [⟨0, 1, 7, some 100, none, none, none⟩, ⟨1, 1, 7, some 100, none, none, none⟩,
     ⟨2, 1, 7, some 90, none, none, none⟩, ⟨3, 1, 7, some 90, none, none, none⟩]⟩

/-- The speed series of `c7wFrame` as a function of the sample index. -/
def c7wSpeed : ℕ → ℚ := fun i => [(100 : ℚ), 100, 90, 90].getD i 0

/-! ### Sector Aggregator (track_config/detect_sectors.py)

One per-lap row restricted to the three resolved sector-time cells
(after `pd.to_numeric(..., errors="coerce")`; `none` is a NaN). -/
structure SRow where
  s1 : Option ℚ
  s2 : Option ℚ
  s3 : Option ℚ
deriving Repr, DecidableEq

/-- The track's rows plus column-resolution flags: `hasS1` models that
`_get_numeric_col` found one of the aliases for sector 1, etc. -/
structure SFrame where
  hasS1 : Bool
  hasS2 : Bool
  hasS3 : Bool
  rows : List SRow
deriving Repr, DecidableEq

/-- `pandas.Series.mean`: mean of the non-NaN cells, NaN (`none`) when
none is present. -/
def meanOpt (l : List (Option ℚ)) : Option ℚ :=
  let xs := l.filterMap id
  if xs.isEmpty then none else some (xs.sum / xs.length)

/-- Mean of the resolved sector-1 column. -/
def meanS1 (f : SFrame) : Option ℚ := meanOpt (f.rows.map SRow.s1)

/-- Mean of the resolved sector-2 column. -/
def meanS2 (f : SFrame) : Option ℚ := meanOpt (f.rows.map SRow.s2)

/-- Mean of the resolved sector-3 column. -/
def meanS3 (f : SFrame) : Option ℚ := meanOpt (f.rows.map SRow.s3)

/-- The grand total `S1.avg + S2.avg + S3.avg`; float NaN propagates
through the sum, so the total is `none` as soon as one mean is. -/
def totalMeans (f : SFrame) : Option ℚ :=
  match meanS1 f, meanS2 f, meanS3 f with
  | some a, some b, some c => some (a + b + c)
  | _, _, _ => none

/-- The source's `total > 0` test; a NaN total compares `False`. -/
def totalPos (f : SFrame) : Bool :=
  match totalMeans f with
  | some t => decide (0 < t)
  | none => false

/-- One sector's statistics.  The source also stores `std_time`
(`float(series.std())`); a sample standard deviation is an irrational
square root in general, no claim references it, and it is omitted from
the embedding. -/
structure SectorStat where
  avg_time : Option ℚ
  min : Option ℚ
  max : Option ℚ
  distance_ratio : Option ℚ
deriving Repr, DecidableEq

/-- The aggregate row built for one sector before ratios are assigned. -/
def mkStatBase (cells : List (Option ℚ)) : SectorStat :=
  { avg_time := meanOpt cells
    min := optMin (cells.filterMap id)
    max := optMax (cells.filterMap id)
    distance_ratio := none }

/-- The second pass of `detect_sectors`: when the total is positive,
`distance_ratio = avg_time / total` for the sector; otherwise `None`. -/
def withRatio (st : SectorStat) (total : Option ℚ) (tp : Bool) : SectorStat :=
  { st with distance_ratio :=
      if tp = true then
        match st.avg_time, total with
        | some m, some t => some (m / t)
        | _, _ => none
      else none }

/-- The `sector_summary` mapping for one track. -/
structure SectorSummary where
  S1 : SectorStat
  S2 : SectorStat
  S3 : SectorStat
deriving Repr, DecidableEq

/-- `detect_sectors(track)` after the frame is restricted to the track:
`None` for an empty track or an unresolvable sector column, otherwise the
per-sector statistics with distance ratios from the positive grand
total. -/
def detect_sectors (f : SFrame) : Option SectorSummary :=
  if f.rows.isEmpty then none
  else if f.hasS1 = true ∧ f.hasS2 = true ∧ f.hasS3 = true then
    some
      { S1 := withRatio (mkStatBase (f.rows.map SRow.s1)) (totalMeans f) (totalPos f)
        S2 := withRatio (mkStatBase (f.rows.map SRow.s2)) (totalMeans f) (totalPos f)
        S3 := withRatio (mkStatBase (f.rows.map SRow.s3)) (totalMeans f) (totalPos f) }
  else none

/-- A one-lap track frame with sector times 30, 40, 30. -/
def c5wFrame : SFrame := ⟨true, true, true, [⟨some 30, some 40, some 30⟩]⟩

/-- The summary `detect_sectors` produces on `c5wFrame`: distance ratios
0.3, 0.4, 0.3. -/
def c5wSummary : SectorSummary :=
  ⟨⟨some 30, some 30, some 30, some (3/10)⟩,
   ⟨some 40, some 40, some 40, some (2/5)⟩,
   ⟨some 30, some 30, some 30, some (3/10)⟩⟩

/-! ### Universal lap time parser (utils/pit_stop_optimizer.py)

A float value as Python's arithmetic sees it: finite, ±infinity, or NaN.
Rational arithmetic stands in for the finite doubles; decimal-literal
overflow to infinity is not modelled (no claim depends on it). -/
inductive PyVal where
  | finite (q : ℚ)
  | pinf
  | ninf
  | nan
deriving Repr, DecidableEq

/-- Decidable equality for the parser's result type, so that concrete
runs can be checked by evaluation. -/
instance : DecidableEq (Except Unit PyVal)
  | Except.ok a, Except.ok b =>
    match decEq a b with
    | isTrue h => isTrue (h ▸ rfl)
    | isFalse h => isFalse (fun he => h (Except.ok.inj he))
  | Except.error a, Except.error b =>
    match decEq a b with
    | isTrue h => isTrue (h ▸ rfl)
    | isFalse h => isFalse (fun he => h (Except.error.inj he))
  | Except.ok _, Except.error _ => isFalse (fun he => Except.noConfusion he)
  | Except.error _, Except.ok _ => isFalse (fun he => Except.noConfusion he)

/-- Python `str.isdigit` for one character: the ASCII digits plus the
characters of Unicode category No that carry a digit value, represented
here by the superscript digits (other scripts' digits are outside the
modelled character set). -/
def pyIsDigit (c : Char) : Bool := c.isDigit || c = '¹' || c = '²' || c = '³'

/-- Python `str.isdigit` on a string: non-empty and every character
digit-like. -/
def pyIsDigitStr (s : String) : Bool := !s.data.isEmpty && s.data.all pyIsDigit

/-- `str.replace(".", "", 1)`: drop the first dot, keep the rest. -/
def removeFirstDotAux : List Char → List Char
  | [] => []
  | c :: cs => if c = '.' then cs else c :: removeFirstDotAux cs

/-- `x.replace(".", "", 1)` as the source applies it before `isdigit`. -/
def removeFirstDot (s : String) : String := ⟨removeFirstDotAux s.data⟩

/-- `str.strip()`: whitespace removed from both ends. -/
def pyStripChars (cs : List Char) : List Char :=
  ((cs.dropWhile Char.isWhitespace).reverse.dropWhile Char.isWhitespace).reverse

/-- `str(x).strip()` for a string scalar. -/
def pyStrip (s : String) : String := ⟨pyStripChars s.data⟩

/-- Value of a list of ASCII digits. -/
def digitsToNat (cs : List Char) : ℕ :=
  cs.foldl (fun acc c => 10 * acc + (c.toNat - 48)) 0

/-- Split a character list into leading ASCII digits and the rest. -/
def takeDigits (cs : List Char) : List Char × List Char :=
  (cs.takeWhile Char.isDigit, cs.dropWhile Char.isDigit)

/-- CPython `float(string)` on the modelled character set: optional
surrounding whitespace and sign, then `inf`/`infinity`/`nan`
(case-insensitive) or a decimal literal `digits [. digits] [(e|E) [sign]
digits]` with at least one mantissa digit; anything else (including a
digit-valued character that is not a decimal digit, such as '²') raises
ValueError, modelled as `none`.  Unicode decimal digits of other scripts
and underscore separators are not modelled. -/
def pyFloatChars (s : List Char) : Option PyVal :=
  let t := pyStripChars s
  let signed : Bool × List Char :=
    match t with
    | '+' :: r => (false, r)
    | '-' :: r => (true, r)
    | r => (false, r)
  let neg := signed.1
  let rest := signed.2
  let low := rest.map Char.toLower
  if low = "inf".data ∨ low = "infinity".data then
    some (if neg then PyVal.ninf else PyVal.pinf)
  else if low = "nan".data then some PyVal.nan
  else
    let ipr := takeDigits rest
    let ip := ipr.1
    let fpr :=
      match ipr.2 with
      | '.' :: r => takeDigits r
      | _ => ([], ipr.2)
    let fp := fpr.1
    if ip.isEmpty ∧ fp.isEmpty then none
    else
      let mant : ℚ := (digitsToNat ip : ℚ) + (digitsToNat fp : ℚ) / (10 : ℚ) ^ fp.length
      match fpr.2 with
      | [] => some (PyVal.finite (if neg then -mant else mant))
      | e :: r3 =>
        if e = 'e' ∨ e = 'E' then
          let esigned : Bool × List Char :=
            match r3 with
            | '+' :: r => (false, r)
            | '-' :: r => (true, r)
            | r => (false, r)
          let edr := takeDigits esigned.2
          if edr.1.isEmpty ∨ ¬ edr.2.isEmpty then none
          else
            let ex : ℚ := (10 : ℚ) ^ digitsToNat edr.1
            let mag := if esigned.1 then mant / ex else mant * ex
            some (PyVal.finite (if neg then -mag else mag))
        else none

/-- `float(x)` for a string scalar. -/
def pyFloatOfString (s : String) : Option PyVal := pyFloatChars s.data

/-- Python `int(string)` on the modelled character set: optional
surrounding whitespace and sign, then non-empty ASCII digits; anything
else raises ValueError, modelled as `none`. -/
def pyIntOfString (s : String) : Option ℤ :=
  let t := pyStripChars s.data
  let signed : Bool × List Char :=
    match t with
    | '+' :: r => (false, r)
    | '-' :: r => (true, r)
    | r => (false, r)
  if signed.2.isEmpty ∨ ¬ signed.2.all Char.isDigit then none
  else some (if signed.1 then -(digitsToNat signed.2 : ℤ) else (digitsToNat signed.2 : ℤ))

/-- `str.split(":")`: every maximal colon-free run, keeping empties; the
result is never the empty list. -/
def splitOnColon : List Char → List (List Char)
  | [] => [[]]
  | c :: rest =>
    let r := splitOnColon rest
    if c = ':' then [] :: r
    else
      match r with
      | [] => [[c]]
      | h :: t => (c :: h) :: t

/-- `x.split(":")` for a string. -/
def pySplitColon (s : String) : List String :=
  (splitOnColon s.data).map (fun cs => (⟨cs⟩ : String))

/-- `h * 3600 + m * 60 + s` where `h`, `m` are ints and `s` a float:
a NaN or infinite seconds part propagates through the sum. -/
def addHMS (h m : ℤ) (s : PyVal) : PyVal :=
  match s with
  | PyVal.finite q => PyVal.finite ((h : ℚ) * 3600 + (m : ℚ) * 60 + q)
  | w => w

/-- `parse_lap_time_to_seconds(x)` for a scalar that is missing (`none`,
where `pd.isna` is true) or a string.  The numeric pre-check branch calls
`float(x)` outside any try/except, so its ValueError propagates
(`Except.error`); the colon branch wraps all conversions in try/except
and yields NaN on failure.  With three or more colons the final `else`
arm converts only the first field. -/
def parse_lap_time_to_seconds (x : Option String) : Except Unit PyVal :=
  match x with
  | none => Except.ok PyVal.nan
  | some s0 =>
    let t := pyStrip s0
    if pyIsDigitStr (removeFirstDot t) = true then
      match pyFloatOfString t with
      | some w => Except.ok w
      | none => Except.error ()
    else
      match pySplitColon t with
      | [p1, p2, p3] =>
        match pyIntOfString p1, pyIntOfString p2, pyFloatOfString p3 with
        | some h, some m, some sv => Except.ok (addHMS h m sv)
        | _, _, _ => Except.ok PyVal.nan
      | [p1, p2] =>
        match pyIntOfString p1, pyFloatOfString p2 with
        | some m, some sv => Except.ok (addHMS 0 m sv)
        | _, _ => Except.ok PyVal.nan
      | ps =>
        match pyFloatOfString (ps.headD t) with
        | some sv => Except.ok (addHMS 0 0 sv)
        | none => Except.ok PyVal.nan

/-! ### Helper lemmas -/

theorem insSorted_length (x : ℚ) (l : List ℚ) :
    (insSorted x l).length = l.length + 1 := by
  induction l with
  | nil => rfl
  | cons y ys ih => simp only [insSorted]; split <;> simp [ih]

theorem sortQ_length (l : List ℚ) : (sortQ l).length = l.length := by
  induction l with
  | nil => rfl
  | cons x xs ih => simp [sortQ, insSorted_length] at *; omega

theorem median_isSome {l : List ℚ} (h : l ≠ []) : ∃ m, median l = some m := by
  have hn : (sortQ l).length ≠ 0 := by
    rw [sortQ_length]
    simpa using (List.length_pos.mpr h).ne'
  simp only [median]
  split_ifs
  · omega
  · exact ⟨_, rfl⟩
  · exact ⟨_, rfl⟩

/-! ### Theorems for the claims on the Strategy Simulator -/

/-- C1, counterexample.  For the five-lap car with model a = 100, b = 1 and
pit loss 10, `simulate` reports 525 s for the 1-stop strategy, while the
claimed reset-based total is 521 or 519 for every placement of the single
stop that is followed by at least one lap (stop after lap 1, 2, 3 or 4 of
5) — `simulate` never resets the lap age, so the claim's formula does not
reproduce its totals. -/
theorem C1_counterexample :
    simulate exLaps5 100 1 10 = [(0, 515), (1, 525), (2, 535)] ∧
    specResetTotal 5 [1] 100 1 10 = 521 ∧
    specResetTotal 5 [2] 100 1 10 = 519 ∧
    specResetTotal 5 [3] 100 1 10 = 519 ∧
    specResetTotal 5 [4] 100 1 10 = 521 ∧
    (521 : ℚ) ≠ 525 ∧ (519 : ℚ) ≠ 525 := by
  refine ⟨?_, ?_, ?_, ?_, ?_, by norm_num, by norm_num⟩ <;> with_unfolding_all decide

/-- C1, amended.  For every fitted model (a, b), pit loss, and stop count
k in {0, 1, 2}, the Strategy Simulator's total race time for the k-stop
strategy is the sum over laps 1..N of a + b·lap with lap ages never reset,
plus pit_loss × k. -/
theorem C1_total_time_no_reset (laps : List Lap) (a b p : ℚ) :
    simulate laps a b p =
      [(0, noPitTotal (maxLapCount laps) a b),
       (1, noPitTotal (maxLapCount laps) a b + p),
       (2, noPitTotal (maxLapCount laps) a b + 2 * p)] := by
  simp [simulate]

/-- C9.  Every row of the strategy comparison satisfies: k-stop total =
0-stop total + k × pit_loss; the per-lap predicted sum `noPitTotal` is the
same for every stop count (no lap-age reset in the summary comparison). -/
theorem C9_stop_totals_affine (laps : List Lap) (a b p : ℚ) (x : ℕ × ℚ)
    (hx : x ∈ simulate laps a b p) :
    x.2 = ((simulate laps a b p).headD (0, 0)).2 + (x.1 : ℚ) * p ∧
    ((simulate laps a b p).headD (0, 0)).2 = noPitTotal (maxLapCount laps) a b := by
  simp [simulate] at hx ⊢
  rcases hx with h | h | h <;> subst h <;> norm_num

/-- C9, witness: the 1-stop row of the five-lap example satisfies the
affine relation. -/
theorem C9_stop_totals_affine_witness :
    ((1 : ℕ), (525 : ℚ)).2 =
      ((simulate exLaps5 100 1 10).headD (0, 0)).2 + (((1 : ℕ), (525 : ℚ)).1 : ℚ) * 10 ∧
    ((simulate exLaps5 100 1 10).headD (0, 0)).2 = noPitTotal (maxLapCount exLaps5) 100 1 :=
  C9_stop_totals_affine exLaps5 100 1 10 (1, 525) (by with_unfolding_all decide)

/-- C2, counterexample.  On the perfectly flat 20-lap series at 90.0 s the
degradation fit has 20 ≥ 4 non-pit laps, so the least-squares branch runs
and returns slope exactly 0 — not the configured minimum positive default
0.02 (= 1/50), which applies only in the fewer-than-4-laps fallback. -/
theorem C2_counterexample :
    fit_degradation flat20 = some (90, 0) ∧ (0 : ℚ) ≠ 1/50 :=
  ⟨by with_unfolding_all decide, by norm_num⟩

/-- C2, amended.  On the perfectly flat 20-lap series at 90.0 s with no
pit-time data: the pit loss falls back to the fixed default 20.0 s, the
fitted model is intercept 90 with least-squares slope 0 (not the 0.02
minimum default, whose branch needs fewer than 4 non-pit laps), and the
0-stop strategy is selected as best (totals 1800 < 1820 < 1840 s). -/
theorem C2_flat_series_pipeline :
    estimate_pit_loss false flat20 = 20 ∧
    fit_degradation flat20 = some (90, 0) ∧
    bestStrategy (simulate flat20 90 0 20) = some (0, 1800) := by
  refine ⟨?_, ?_, ?_⟩ <;> with_unfolding_all decide

/-- C4.  Whenever fewer than 4 laps survive the pit-lap filter (and at
least one does), the degradation fit degenerates to a flat pace: the
intercept is the median non-pit lap time and the slope is the fixed
constant 0.02 = 1/50, which is strictly positive. -/
theorem C4_few_laps_flat_fit (laps : List Lap)
    (h1 : nonPitLaps laps ≠ []) (h2 : (nonPitLaps laps).length < 4) :
    fit_degradation laps = some (medianD (lapTimes (nonPitLaps laps)), 1/50) ∧
    (0 : ℚ) < 1/50 := by
  obtain ⟨m, hm⟩ := median_isSome (l := lapTimes (nonPitLaps laps))
    (by simp [lapTimes]; exact h1)
  refine ⟨?_, by norm_num⟩
  simp [fit_degradation, h2, hm, medianD]

/-- C4, witness: two non-pit laps of 90 and 91 seconds give the flat fit
(median 90.5 = 181/2, slope 1/50). -/
theorem C4_few_laps_flat_fit_witness :
    nonPitLaps c4wLaps ≠ [] ∧ (nonPitLaps c4wLaps).length < 4 ∧
    (fit_degradation c4wLaps = some (medianD (lapTimes (nonPitLaps c4wLaps)), 1/50) ∧
      (0 : ℚ) < 1/50) :=
  ⟨by with_unfolding_all decide, by with_unfolding_all decide,
    C4_few_laps_flat_fit c4wLaps (by with_unfolding_all decide) (by with_unfolding_all decide)⟩

/-! ### Lemmas about the corner segmenter -/

theorem optMin_cons (a : ℚ) (t : List ℚ) :
    optMin (a :: t) = match optMin t with
      | none => some a
      | some y => some (min a y) := rfl

theorem optMax_cons (a : ℚ) (t : List ℚ) :
    optMax (a :: t) = match optMax t with
      | none => some a
      | some y => some (max a y) := rfl

theorem optMin_mem_le {l : List ℚ} {x : ℚ} (hx : x ∈ l) :
    ∃ v, optMin l = some v ∧ v ≤ x := by
  induction l with
  | nil => cases hx
  | cons a t ih =>
    rcases List.mem_cons.mp hx with rfl | hx'
    · rw [optMin_cons]
      cases ht : optMin t with
      | none => exact ⟨x, rfl, le_refl x⟩
      | some y => exact ⟨min x y, rfl, min_le_left x y⟩
    · obtain ⟨v, hv, hle⟩ := ih hx'
      rw [optMin_cons, hv]
      exact ⟨min a v, rfl, le_trans (min_le_right a v) hle⟩

theorem optMax_mem_ge {l : List ℚ} {x : ℚ} (hx : x ∈ l) :
    ∃ v, optMax l = some v ∧ x ≤ v := by
  induction l with
  | nil => cases hx
  | cons a t ih =>
    rcases List.mem_cons.mp hx with rfl | hx'
    · rw [optMax_cons]
      cases ht : optMax t with
      | none => exact ⟨x, rfl, le_refl x⟩
      | some y => exact ⟨max x y, rfl, le_max_left x y⟩
    · obtain ⟨v, hv, hle⟩ := ih hx'
      rw [optMax_cons, hv]
      exact ⟨max a v, rfl, le_trans hle (le_max_right a v)⟩

theorem segScan_bounds (θ : ℚ) (rows : List CRow) : ∀ (i start : ℕ) (inC : Bool),
    (inC = true → start ≤ i) →
    ∀ p ∈ segScan θ rows i inC start, p.1 ≤ p.2 ∧ p.2 < i + rows.length := by
  induction rows with
  | nil => intro i start inC _ p hp; simp [segScan] at hp
  | cons r rest ih =>
    intro i start inC hst p hp
    rcases hsa : r.steering_angle with _ | ang <;> rcases hg : r.accy_can with _ | g <;>
      simp only [segScan, hsa, hg] at hp
    · have := ih (i + 1) start inC (fun h => le_trans (hst h) (Nat.le_succ i)) p hp
      exact ⟨this.1, by simp only [List.length_cons]; omega⟩
    · have := ih (i + 1) start inC (fun h => le_trans (hst h) (Nat.le_succ i)) p hp
      exact ⟨this.1, by simp only [List.length_cons]; omega⟩
    · have := ih (i + 1) start inC (fun h => le_trans (hst h) (Nat.le_succ i)) p hp
      exact ⟨this.1, by simp only [List.length_cons]; omega⟩
    · by_cases hopen : inC = false ∧ (θ < |ang| ∨ (3 : ℚ)/20 < |g|)
      · rw [if_pos hopen, if_pos hopen] at hp
        by_cases hclose : (true = true ∧ |ang| < 3 ∧ |g| < (1 : ℚ)/10)
        · rw [if_pos hclose] at hp
          rcases List.mem_cons.mp hp with rfl | hp'
          · exact ⟨le_refl i, by simp only [List.length_cons]; omega⟩
          · have := ih (i + 1) i false (by simp) p hp'
            exact ⟨this.1, by simp only [List.length_cons]; omega⟩
        · rw [if_neg hclose] at hp
          have := ih (i + 1) i true (fun _ => Nat.le_succ i) p hp
          exact ⟨this.1, by simp only [List.length_cons]; omega⟩
      · rw [if_neg hopen, if_neg hopen] at hp
        by_cases hclose : (inC = true ∧ |ang| < 3 ∧ |g| < (1 : ℚ)/10)
        · rw [if_pos hclose] at hp
          rcases List.mem_cons.mp hp with rfl | hp'
          · exact ⟨hst hclose.1, by simp only [List.length_cons]; omega⟩
          · have := ih (i + 1) start false (by simp) p hp'
            exact ⟨this.1, by simp only [List.length_cons]; omega⟩
        · rw [if_neg hclose] at hp
          have := ih (i + 1) start inC (fun h => le_trans (hst h) (Nat.le_succ i)) p hp
          exact ⟨this.1, by simp only [List.length_cons]; omega⟩

theorem cornerIntervals_bounds (θ : ℚ) (m : ℕ) (f : CFrame) :
    ∀ p ∈ cornerIntervals θ m f, p.1 ≤ p.2 ∧ p.2 < f.rows.length ∧ m < p.2 - p.1 := by
  intro p hp
  have hmem := List.mem_filter.mp hp
  have hb := segScan_bounds θ f.rows 0 0 false (by simp) p hmem.1
  have hlt : m < p.2 - p.1 := by simpa using hmem.2
  exact ⟨hb.1, by simpa using hb.2, hlt⟩

theorem optMin_lt_optMax_of_sorted (l : List CRow)
    (hp : l.Pairwise (fun r s => r.timestamp < s.timestamp))
    (hl : 2 ≤ l.length) :
    (optMin (l.map CRow.timestamp)).getD 0 < (optMax (l.map CRow.timestamp)).getD 0 := by
  match l, hl with
  | a :: b :: t, _ =>
    have hne : (b :: t : List CRow) ≠ [] := by simp
    have hlast_mem : (b :: t).getLast hne ∈ b :: t := List.getLast_mem hne
    have hrel : a.timestamp < ((b :: t).getLast hne).timestamp :=
      (List.pairwise_cons.mp hp).1 _ hlast_mem
    have hmem1 : a.timestamp ∈ (a :: b :: t).map CRow.timestamp := by simp
    have hmem2 : ((b :: t).getLast hne).timestamp ∈ (a :: b :: t).map CRow.timestamp :=
      List.mem_map_of_mem CRow.timestamp (List.mem_cons_of_mem a hlast_mem)
    obtain ⟨v1, hv1, hle1⟩ := optMin_mem_le hmem1
    obtain ⟨v2, hv2, hle2⟩ := optMax_mem_ge hmem2
    rw [hv1, hv2]
    simp only [Option.getD_some]
    exact lt_of_le_of_lt hle1 (lt_of_lt_of_le hrel hle2)

/-! ### Theorems for the claims on the Corner Segmenter -/

/-- C3.  On the aligned frame with steering [0, 8, 8, 2, 2] and lateral g
always 0 over 5 samples, the segmenter opens at sample index 1, closes at
sample index 3 (the single closed span is (1, 3)), and with minimum
segment length 2 the emission test 3 − 1 > 2 fails, so zero Corner
Records are emitted: the boundary is a strict greater-than. -/
theorem C3_boundary_scenario :
    segScan 5 c3Frame.rows 0 false 0 = [(1, 3)] ∧
    detect_corners 5 2 c3Frame = [] := by
  refine ⟨?_, ?_⟩ <;> with_unfolding_all decide

/-- C6, counterexample.  An aligned frame may carry one timestamp on
several rows (the pivot key is (timestamp, lap, vehicle)); on `c6Frame`
all four rows share timestamp 7, a segment of 3 samples is emitted with
minimum length 2, and its end_time equals its start_time — refuting the
unconditional claim end_time > start_time. -/
theorem C6_counterexample :
    detect_corners 5 2 c6Frame = [c6Rec] ∧ c6Rec.end_time ≤ c6Rec.start_time := by
  refine ⟨?_, ?_⟩
  · with_unfolding_all decide
  · norm_num [c6Rec]

/-- C6, amended.  Every emitted span's sample count strictly exceeds the
configured minimum, and whenever the frame's timestamps are strictly
increasing (and the minimum length is at least 1, as the default 8 is),
every emitted Corner Record has end_time strictly greater than
start_time.  With repeated timestamps only end_time ≥ start_time holds,
as the counterexample shows. -/
theorem C6_record_invariants (θ : ℚ) (m : ℕ) (f : CFrame) (hm : 1 ≤ m)
    (hmono : f.rows.Pairwise (fun r s => r.timestamp < s.timestamp)) :
    (∀ p ∈ cornerIntervals θ m f, m < p.2 - p.1) ∧
    (∀ c ∈ detect_corners θ m f, c.start_time < c.end_time) := by
  constructor
  · intro p hp
    exact (cornerIntervals_bounds θ m f p hp).2.2
  · intro c hc
    unfold detect_corners at hc
    split at hc
    · simp at hc
    · split at hc
      · obtain ⟨p, hp, rfl⟩ := List.mem_map.mp hc
        obtain ⟨h1, h2, h3⟩ := cornerIntervals_bounds θ m f p hp
        have hlen : (segSlice f.rows p).length = p.2 - p.1 := by
          simp only [segSlice, List.length_take, List.length_drop]
          omega
        have hpw : (segSlice f.rows p).Pairwise (fun r s => r.timestamp < s.timestamp) :=
          hmono.sublist ((List.take_sublist _ _).trans (List.drop_sublist _ _))
        have h2le : 2 ≤ (segSlice f.rows p).length := by omega
        have := optMin_lt_optMax_of_sorted _ hpw h2le
        simpa [mkCornerRec] using this
      · simp at hc

/-- C6, witness: on a strictly increasing four-sample frame with minimum
length 1 a record is emitted, its span has more than 1 sample and its
times are strictly ordered. -/
theorem C6_record_invariants_witness :
    (∀ p ∈ cornerIntervals 5 1 c6wFrame, 1 < p.2 - p.1) ∧
    (∀ c ∈ detect_corners 5 1 c6wFrame, c.start_time < c.end_time) :=
  C6_record_invariants 5 1 c6wFrame (le_refl 1) (by with_unfolding_all decide)

/-- C8.  Whenever any of the required columns (speed, lateral g, steering
angle) is absent from the whole frame, `detect_corners` returns the empty
sequence; the embedded function is total, mirroring that the source takes
the early-return path and raises nothing. -/
theorem C8_missing_columns_empty (θ : ℚ) (minSeg : ℕ) (f : CFrame)
    (h : f.hasSpeed = false ∨ f.hasAccy = false ∨ f.hasSteering = false) :
    detect_corners θ minSeg f = [] := by
  rcases h with h | h | h <;> simp [detect_corners, h]

/-- C8, witness: a non-empty frame without a steering_angle column yields
no corner records. -/
theorem C8_missing_columns_empty_witness :
    c8wFrame.hasSteering = false ∧ detect_corners 5 8 c8wFrame = [] :=
  ⟨rfl, C8_missing_columns_empty 5 8 c8wFrame (Or.inr (Or.inr rfl))⟩

/-! ### Lemmas about the braking detector -/

theorem filterMap_eq_singleton {α β : Type} (g : α → Option β) :
    ∀ (l : List α) (j : ℕ) (hj : j < l.length) (b : β),
      g (l.get ⟨j, hj⟩) = some b →
      (∀ i (hi : i < l.length), i ≠ j → g (l.get ⟨i, hi⟩) = none) →
      l.filterMap g = [b] := by
  intro l
  induction l with
  | nil => intro j hj b _ _; simp at hj
  | cons a t ih =>
    intro j hj b hb hnone
    cases j with
    | zero =>
      have ha : g a = some b := hb
      have ht : t.filterMap g = [] := by
        rw [List.filterMap_eq_nil_iff]
        intro x hx
        obtain ⟨⟨i, hi⟩, rfl⟩ := List.mem_iff_get.mp hx
        exact hnone (i + 1) (by simpa using Nat.succ_lt_succ hi) (by simp)
      simp [List.filterMap_cons, ha, ht]
    | succ j' =>
      have ha : g a = none := hnone 0 (by simp) (by simp)
      have ht : t.filterMap g = [b] := by
        refine ih j' (by simpa using Nat.lt_of_succ_lt_succ hj) b hb ?_
        intro i hi hne
        exact hnone (i + 1) (by simpa using Nat.succ_lt_succ hi)
          (by simpa using Nat.succ_ne_succ.mpr hne)
      simp [List.filterMap_cons, ha, ht]

/-! ### Theorem for the claim on the Braking Detector -/

/-- C7.  For a frame whose optional channels (longitudinal acceleration,
front and rear brake pressure) are absent, whose speed cells are all
present with values `v i`, and in which sample `j` is the only one whose
consecutive difference lies below the −4.0 threshold — with that
difference equal to −10 — the detector produces exactly one Braking Event,
located at sample `j`, carrying the speed immediately before and after. -/
theorem C7_single_drop (f : BFrame) (v : ℕ → ℚ)
    (hsp : f.hasSpeed = true) (hax : f.hasAccx = false)
    (hbf : f.hasF = false) (hbr : f.hasR = false)
    (hv : ∀ i (h : i < f.rows.length), (f.rows.get ⟨i, h⟩).speed = some (v i))
    (j : ℕ) (hj1 : 1 ≤ j) (hj2 : j < f.rows.length)
    (hdrop : v j - v (j - 1) = -10)
    (hother : ∀ i, i < f.rows.length → 1 ≤ i → i ≠ j → ¬ (v i - v (i - 1) < -4)) :
    detect_braking_points f =
      [mkBEvent (f.rows.get ⟨j - 1, by omega⟩) (f.rows.get ⟨j, hj2⟩)] ∧
    (mkBEvent (f.rows.get ⟨j - 1, by omega⟩) (f.rows.get ⟨j, hj2⟩)).speed_before =
      some (v (j - 1)) ∧
    (mkBEvent (f.rows.get ⟨j - 1, by omega⟩) (f.rows.get ⟨j, hj2⟩)).speed_after =
      some (v j) := by
  have hlen : (f.rows.zip f.rows.tail).length = f.rows.length - 1 := by
    simp only [List.length_zip, List.length_tail]
    omega
  have hpair : ∀ (i : ℕ) (hi1 : i < f.rows.length) (hi2 : i + 1 < f.rows.length)
      (hz : i < (f.rows.zip f.rows.tail).length),
      (f.rows.zip f.rows.tail).get ⟨i, hz⟩ =
        (f.rows.get ⟨i, hi1⟩, f.rows.get ⟨i + 1, hi2⟩) := by
    intro i hi1 hi2 hz
    simp only [List.get_eq_getElem, List.getElem_zip, List.getElem_tail]
  have hfire : ∀ (i : ℕ) (hi : i + 1 < f.rows.length),
      brakeFires f.hasAccx f.hasF f.hasR (f.rows.get ⟨i, by omega⟩)
          (f.rows.get ⟨i + 1, hi⟩) =
        decide (v (i + 1) - v i < -4) := by
    intro i hi
    have h1 := hv i (by omega)
    have h2 := hv (i + 1) hi
    simp only [brakeFires, h1, h2, hax, hbf, hbr, Bool.false_and, Bool.or_false]
  have hne : ¬ (f.rows.isEmpty = true) := by
    have : f.rows ≠ [] := List.ne_nil_of_length_pos (by omega)
    simpa using this
  have hsp' : ¬ (f.hasSpeed = false) := by simp [hsp]
  refine ⟨?_, by simpa [mkBEvent] using hv (j - 1) (by omega),
    by simpa [mkBEvent] using hv j hj2⟩
  unfold detect_braking_points
  rw [if_neg hne, if_neg hsp']
  have hj1' : j - 1 < (f.rows.zip f.rows.tail).length := by rw [hlen]; omega
  refine filterMap_eq_singleton _ _ (j - 1) hj1' _ ?_ ?_
  · rw [hpair (j - 1) (by omega) (by omega) hj1']
    have hidx : j - 1 + 1 = j := by omega
    simp only [hidx]
    have hfj := hfire (j - 1) (by omega)
    simp only [hidx] at hfj
    rw [hfj]
    have hlt : v j - v (j - 1) < -4 := by rw [hdrop]; norm_num
    simp [hlt]
  · intro i hi hne'
    have hi2 : i + 1 < f.rows.length := by rw [hlen] at hi; omega
    rw [hpair i (by omega) hi2 hi]
    rw [hfire i hi2]
    have hnf : ¬ (v (i + 1) - v i < -4) := by
      have hio := hother (i + 1) (by omega) (by omega) (by rw [hlen] at hi; omega)
      simpa using hio
    simp [hnf]

/-- C7, witness: on the concrete series 100, 100, 90, 90 with no optional
channels, exactly the event at sample 2 with speeds 100 before and 90
after is produced. -/
theorem C7_single_drop_witness :
    c7wSpeed 2 - c7wSpeed 1 = -10 ∧
    detect_braking_points c7wFrame = [⟨2, 1, 7, some 100, some 90⟩] := by
  have h := C7_single_drop c7wFrame c7wSpeed rfl rfl rfl rfl
    (by with_unfolding_all decide) 2 (by omega) (by with_unfolding_all decide)
    (by with_unfolding_all decide) (by with_unfolding_all decide)
  exact ⟨by with_unfolding_all decide, h.1.trans (by with_unfolding_all decide)⟩

/-! ### Theorem for the claim on the Sector Aggregator -/

/-- C5.  For every produced Sector Statistic: each avg_time is the
sector's mean; whenever the grand total is a positive number each
distance_ratio is the sector's avg_time divided by that total; all three
distance_ratios are null when the total is not a positive number (NaN
included); and whenever the total is positive the three ratios are
defined and sum exactly to 1 (hence within the 1e-6 tolerance). -/
theorem C5_distance_ratio_invariants (f : SFrame) (s : SectorSummary)
    (h : detect_sectors f = some s) :
    s.S1.avg_time = meanS1 f ∧ s.S2.avg_time = meanS2 f ∧ s.S3.avg_time = meanS3 f ∧
    (∀ t, totalMeans f = some t → 0 < t →
      s.S1.distance_ratio = (meanS1 f).map (fun m => m / t) ∧
      s.S2.distance_ratio = (meanS2 f).map (fun m => m / t) ∧
      s.S3.distance_ratio = (meanS3 f).map (fun m => m / t)) ∧
    (totalPos f = false →
      s.S1.distance_ratio = none ∧ s.S2.distance_ratio = none ∧
        s.S3.distance_ratio = none) ∧
    (totalPos f = true →
      ∃ r1 r2 r3, s.S1.distance_ratio = some r1 ∧ s.S2.distance_ratio = some r2 ∧
        s.S3.distance_ratio = some r3 ∧ r1 + r2 + r3 = 1) := by
  unfold detect_sectors at h
  split at h
  · exact absurd h (by simp)
  split at h
  case isFalse => exact absurd h (by simp)
  have hs := Option.some.inj h
  subst hs
  refine ⟨by simp [withRatio, mkStatBase, meanS1],
    by simp [withRatio, mkStatBase, meanS2],
    by simp [withRatio, mkStatBase, meanS3], ?_, ?_, ?_⟩
  · intro t ht hpos
    have htp : totalPos f = true := by simp [totalPos, ht, hpos]
    rcases hma : meanS1 f with _ | a
    · simp [totalMeans, hma] at ht
    rcases hmb : meanS2 f with _ | b
    · simp [totalMeans, hma, hmb] at ht
    rcases hmc : meanS3 f with _ | c
    · simp [totalMeans, hma, hmb, hmc] at ht
    have hma' : meanOpt (f.rows.map SRow.s1) = some a := hma
    have hmb' : meanOpt (f.rows.map SRow.s2) = some b := hmb
    have hmc' : meanOpt (f.rows.map SRow.s3) = some c := hmc
    refine ⟨?_, ?_, ?_⟩ <;>
      simp [withRatio, mkStatBase, htp, ht, hma, hmb, hmc, hma', hmb', hmc']
  · intro hf
    refine ⟨?_, ?_, ?_⟩ <;> simp [withRatio, hf]
  · intro htp
    rcases ht : totalMeans f with _ | t
    · rw [totalPos, ht] at htp; simp at htp
    have hpos : 0 < t := by
      have := htp
      rw [totalPos, ht] at this
      simpa using this
    rcases hma : meanS1 f with _ | a
    · simp [totalMeans, hma] at ht
    rcases hmb : meanS2 f with _ | b
    · simp [totalMeans, hma, hmb] at ht
    rcases hmc : meanS3 f with _ | c
    · simp [totalMeans, hma, hmb, hmc] at ht
    have htv : a + b + c = t := by simpa [totalMeans, hma, hmb, hmc] using ht
    have hma' : meanOpt (f.rows.map SRow.s1) = some a := hma
    have hmb' : meanOpt (f.rows.map SRow.s2) = some b := hmb
    have hmc' : meanOpt (f.rows.map SRow.s3) = some c := hmc
    refine ⟨a / t, b / t, c / t, ?_, ?_, ?_, ?_⟩
    · simp [withRatio, mkStatBase, htp, ht, hma']
    · simp [withRatio, mkStatBase, htp, ht, hmb']
    · simp [withRatio, mkStatBase, htp, ht, hmc']
    · rw [div_add_div_same, div_add_div_same, htv, div_self (ne_of_gt hpos)]

/-- C5, witness: the one-lap track with sector times 30, 40, 30 has a
positive total 100 and ratios 0.3, 0.4, 0.3 summing to 1. -/
theorem C5_distance_ratio_invariants_witness :
    detect_sectors c5wFrame = some c5wSummary ∧
    (c5wSummary.S1.avg_time = meanS1 c5wFrame ∧
     c5wSummary.S2.avg_time = meanS2 c5wFrame ∧
     c5wSummary.S3.avg_time = meanS3 c5wFrame ∧
     (∀ t, totalMeans c5wFrame = some t → 0 < t →
       c5wSummary.S1.distance_ratio = (meanS1 c5wFrame).map (fun m => m / t) ∧
       c5wSummary.S2.distance_ratio = (meanS2 c5wFrame).map (fun m => m / t) ∧
       c5wSummary.S3.distance_ratio = (meanS3 c5wFrame).map (fun m => m / t)) ∧
     (totalPos c5wFrame = false →
       c5wSummary.S1.distance_ratio = none ∧ c5wSummary.S2.distance_ratio = none ∧
         c5wSummary.S3.distance_ratio = none) ∧
     (totalPos c5wFrame = true →
       ∃ r1 r2 r3, c5wSummary.S1.distance_ratio = some r1 ∧
         c5wSummary.S2.distance_ratio = some r2 ∧
         c5wSummary.S3.distance_ratio = some r3 ∧ r1 + r2 + r3 = 1)) :=
  ⟨by with_unfolding_all decide,
    C5_distance_ratio_invariants c5wFrame c5wSummary (by with_unfolding_all decide)⟩

/-! ### Theorems for the claim on the lap time parser -/

/-- C10, counterexample.  The input "inf" yields positive infinity —
neither a finite number of seconds nor NaN — and the input "²" (a
character accepted by the str.isdigit pre-check but rejected by float())
raises an uncaught ValueError, so the function is not total in the
claimed sense. -/
theorem C10_counterexample :
    parse_lap_time_to_seconds (some "inf") = Except.ok PyVal.pinf ∧
    parse_lap_time_to_seconds (some "²") = Except.error () := by
  refine ⟨?_, ?_⟩ <;> with_unfolding_all decide

/-- C10, amended.  The parser returns NaN for a missing value, and it
raises exactly on the strings that pass the isdigit pre-check (after
removing one dot) but are rejected by float(); on every other input it
returns a float value — finite, infinite, or NaN — and every
colon-branch conversion failure is absorbed into NaN. -/
theorem C10_error_characterisation :
    parse_lap_time_to_seconds none = Except.ok PyVal.nan ∧
    ∀ x : Option String, parse_lap_time_to_seconds x = Except.error () ↔
      ∃ s, x = some s ∧ pyIsDigitStr (removeFirstDot (pyStrip s)) = true ∧
        pyFloatOfString (pyStrip s) = none := by
  refine ⟨rfl, ?_⟩
  intro x
  cases x with
  | none => simp [parse_lap_time_to_seconds]
  | some s =>
    simp only [parse_lap_time_to_seconds]
    by_cases hd : pyIsDigitStr (removeFirstDot (pyStrip s)) = true
    · rw [if_pos hd]
      cases hf : pyFloatOfString (pyStrip s) with
      | none =>
        constructor
        · intro _
          exact ⟨s, rfl, hd, hf⟩
        · intro _
          rfl
      | some w =>
        constructor
        · intro hcontra
          exact Except.noConfusion hcontra
        · rintro ⟨s2, hs2, hd2, hf2⟩
          injection hs2 with he
          subst he
          rw [hf] at hf2
          exact Option.noConfusion hf2
    · rw [if_neg hd]
      constructor
      · intro hcontra
        exfalso
        split at hcontra <;> split at hcontra <;> simp at hcontra
      · rintro ⟨s2, hs2, hd2, _⟩
        injection hs2 with he
        subst he
        exact absurd hd2 hd

end GRCup
